import Mathlib

/-!
Verification of the `vios_alt_disk` Ansible module
(`plugins/modules/vios_alt_disk.py`).

The module drives the creation / cleanup of an alternate rootvg disk on a
VIOS host.  Its decision logic is pure text processing over the output of a
fixed set of external commands, plus a small amount of orchestration state
(the global `results` dictionary and the sequence of commands issued).

We embed that logic shallowly:

* external command execution (`module.run_command`) is a pure environment
  `Env : List String → CmdOut` mapping an argument vector to
  (return code, stdout, stderr); every invocation is recorded in a trace;
* the global `results` dictionary (plus the log written through
  `module.log`) is the record `ModuleState`, threaded explicitly;
* `module.fail_json` is an `error`/`fail` outcome carrying the final state,
  an uncaught Python exception (`KeyError`, `ValueError`) is a `crash`
  outcome;
* the regular expressions of the source are implemented as backtracking
  matchers over `List Char` with Python's leftmost-greedy semantics
  (classes `\S`, `\s`, `\d` read over ASCII command output).
-/

/-- Python `\s` (ASCII whitespace as produced by the parsed command output). -/
def isPySpace (c : Char) : Bool :=
  c = ' ' || c = '\t' || c = '\n' || c = '\r' || c = '\x0b' || c = '\x0c'

/-- Python `\S`. -/
def isNonSpace (c : Char) : Bool :=
  !isPySpace c

/-- Python `\d` on the ASCII command output. -/
def isDig (c : Char) : Bool :=
  c.isDigit

/-- Python `str.rstrip()`: drop trailing whitespace. -/
def pyRstrip (l : List Char) : List Char :=
  (l.reverse.dropWhile isPySpace).reverse

/-- Python `str.split('\n')` at the character-list level. -/
def splitNl : List Char → List (List Char)
  | [] => [[]]
  | '\n' :: rest => [] :: splitNl rest
  | c :: rest =>
    match splitNl rest with
    | [] => [[c]]
    | h :: t => (c :: h) :: t

/-- The per-line view the source takes of a command's stdout:
`for line in stdout.split('\n'): line = line.rstrip()`. -/
def pyLines (stdout : String) : List (List Char) :=
  (splitNl stdout.toList).map pyRstrip

/-- Python `haystack.find(needle)`: character index of the first occurrence,
`-1` when absent. -/
def pyFindAux (pat : List Char) : List Char → Int → Int
  | [], i => if pat = [] then i else -1
  | s@(_ :: t), i => if pat.isPrefixOf s then i else pyFindAux pat t (i + 1)

/-- Python `str.find` on strings. -/
def pyFind (hay pat : String) : Int :=
  pyFindAux pat.toList hay.toList 0

/-- Numeric value of a digit run (the digits are already checked). -/
def digitsVal (l : List Char) : Nat :=
  l.foldl (fun n c => 10 * n + (c.toNat - 48)) 0

/-- Maximal munch for a character class: consume the longest non-empty
prefix satisfying `p`, returning the rest (`none` when the first character
already fails).  Used for the class repetitions of the source's regexes
whose neighbourhood makes backtracking impossible (`\d+` before `\s`,
`\s+` before `\S`, ...). -/
def chompClass (p : Char → Bool) (l : List Char) : Option (List Char) :=
  match l.takeWhile p with
  | [] => none
  | taken => some (l.drop taken.length)

/-- Maximal munch for `\d+` keeping the digits' value. -/
def chompDigits (l : List Char) : Option (Nat × List Char) :=
  match l.takeWhile isDig with
  | [] => none
  | taken => some (digitsVal taken, l.drop taken.length)

/-- Literal text: consume `lit` exactly. -/
def chompLit (lit l : List Char) : Option (List Char) :=
  if lit.isPrefixOf l then some (l.drop lit.length) else none

/-- All splits `l = a ++ b` with `a` a non-empty run of class-`p`
characters, shortest `a` first. -/
def classSplitsShort (p : Char → Bool) : List Char → List (List Char × List Char)
  | [] => []
  | c :: t =>
    if p c then
      ([c], t) :: (classSplitsShort p t).map (fun q => (c :: q.1, q.2))
    else []

/-- The same splits in the order a greedy `(\S+)` tries them: longest
first.  `findSome?` over this list is exactly Python's backtracking. -/
def classSplits (p : Char → Bool) (l : List Char) : List (List Char × List Char) :=
  (classSplitsShort p l).reverse

/-- Tail of `re.match(r"^(\S+):\d+\s+\S+:\d+:(\d+)$", line)` after the
second `\S+` has been fixed: `:\d+:(\d+)$`. -/
def mirrorTail (r : List Char) : Option Nat :=
  match r with
  | ':' :: r1 =>
    match chompDigits r1 with
    | some (_, ':' :: r2) =>
      match chompDigits r2 with
      | some (c, []) => some c
      | _ => none
    | _ => none
  | _ => none

/-- `re.match(r"^(\S+):\d+\s+\S+:\d+:(\d+)$", line)`: the mirrored map
line, yielding (disk, copy number). -/
def matchMirrorKey (l : List Char) : Option (String × Nat) :=
  (classSplits isNonSpace l).findSome? fun g1 =>
    match g1.2 with
    | ':' :: r1 =>
      match chompDigits r1 with
      | some (_, r2) =>
        match chompClass isPySpace r2 with
        | some r3 =>
          (classSplits isNonSpace r3).findSome? fun g2 =>
            match mirrorTail g2.2 with
            | some c => some (String.mk g1.1, c)
            | none => none
        | none => none
      | none => none
    | _ => none

/-- Tail of the single-copy pattern after the second `\S+`: `:\d+$`. -/
def singleTail (r : List Char) : Bool :=
  match r with
  | ':' :: r1 =>
    match chompDigits r1 with
    | some (_, []) => true
    | _ => false
  | _ => false

/-- `re.match(r"^(\S+):\d+\s+\S+:\d+$", line)`: the unmirrored map line
(the copy number is implicitly 1). -/
def matchSingleKey (l : List Char) : Option String :=
  (classSplits isNonSpace l).findSome? fun g1 =>
    match g1.2 with
    | ':' :: r1 =>
      match chompDigits r1 with
      | some (_, r2) =>
        match chompClass isPySpace r2 with
        | some r3 =>
          (classSplits isNonSpace r3).findSome? fun g2 =>
            if singleTail g2.2 then some (String.mk g1.1) else none
        | none => none
      | none => none
    | _ => none

/-- One line of `lsvg -M rootvg` as `check_rootvg` reads it: first the
mirrored shape, then the single-copy shape (copy 1), else skipped. -/
def parseMapLine (l : List Char) : Option (String × Nat) :=
  match matchMirrorKey l with
  | some hc => some hc
  | none =>
    match matchSingleKey l with
    | some h => some (h, 1)
    | none => none

/-- `re.match(r"^(\S+)\s+\S+\s+(\d+)\s+\d+\s+\S+", line)` of the
`lsvg -p rootvg` output: (PV name, TOTAL PPs).  Every repetition is forced
maximal by its disjoint neighbour, so no backtracking arises. -/
def matchPhysKey (l : List Char) : Option (String × Int) :=
  match chompClass isNonSpace l with
  | none => none
  | some r1 =>
      let g1 := l.takeWhile isNonSpace
      match chompClass isPySpace r1 with
      | none => none
      | some r2 =>
        match chompClass isNonSpace r2 with
        | none => none
        | some r3 =>
          match chompClass isPySpace r3 with
          | none => none
          | some r4 =>
            match chompDigits r4 with
            | none => none
            | some (n, r5) =>
              match chompClass isPySpace r5 with
              | none => none
              | some r6 =>
                match chompDigits r6 with
                | none => none
                | some (_, r7) =>
                  match chompClass isPySpace r7 with
                  | none => none
                  | some r8 =>
                    match chompClass isNonSpace r8 with
                    | none => none
                    | some _ => some (String.mk g1, (n : Int))

/-- Suffixes of a line ordered as the greedy leading `.*` of
`re.match(r".*PAT", line)` tries the start position of `PAT`: rightmost
(shortest suffix) first. -/
def suffixesGreedy : List Char → List (List Char)
  | [] => [[]]
  | c :: t => suffixesGreedy t ++ [c :: t]

/-- Pattern tail `TOTAL PPs:\s+\d+\s+\((\d+)\s+megabytes\)` at a fixed
position. -/
def totalPPsTail (l : List Char) : Option Int :=
  match chompLit "TOTAL PPs:".toList l with
  | none => none
  | some r1 =>
    match chompClass isPySpace r1 with
    | none => none
    | some r2 =>
      match chompDigits r2 with
      | none => none
      | some (_, r3) =>
        match chompClass isPySpace r3 with
        | none => none
        | some r4 =>
          match r4 with
          | '(' :: r5 =>
            match chompDigits r5 with
            | none => none
            | some (n, r6) =>
              match chompClass isPySpace r6 with
              | none => none
              | some r7 =>
                match chompLit "megabytes)".toList r7 with
                | none => none
                | some _ => some (n : Int)
          | _ => none

/-- `re.match(r".*TOTAL PPs:\s+\d+\s+\((\d+)\s+megabytes\).*", line)`:
the rootvg total size in megabytes. -/
def matchTotalPPs (l : List Char) : Option Int :=
  (suffixesGreedy l).findSome? totalPPsTail

/-- Pattern tail `PP SIZE:\s+(\d+)\s+megabyte\(s\)` at a fixed position. -/
def ppSizeTail (l : List Char) : Option Int :=
  match chompLit "PP SIZE:".toList l with
  | none => none
  | some r1 =>
    match chompClass isPySpace r1 with
    | none => none
    | some r2 =>
      match chompDigits r2 with
      | none => none
      | some (n, r3) =>
        match chompClass isPySpace r3 with
        | none => none
        | some r4 =>
          match chompLit "megabyte(s)".toList r4 with
          | none => none
          | some _ => some (n : Int)

/-- `re.match(r".*PP SIZE:\s+(\d+)\s+megabyte\(s\)", line)`: the rootvg
physical-partition size in megabytes. -/
def matchPpSize (l : List Char) : Option Int :=
  (suffixesGreedy l).findSome? ppSizeTail

/-- `re.match(r"^(hdisk\S+)\s+(\S+)\s+(\S+)\s*(\S*)", line)` of the
`lspv` output: (name, pvid, vg, status).  All repetitions are forced
maximal (`\s*` and `\S*` may be empty). -/
def matchPvKey (l : List Char) : Option (String × String × String × String) :=
  match chompLit "hdisk".toList l with
  | none => none
  | some r0 =>
    match chompClass isNonSpace r0 with
    | none => none
    | some r1 =>
      let g1 := "hdisk".toList ++ r0.takeWhile isNonSpace
      match chompClass isPySpace r1 with
      | none => none
      | some r2 =>
        let g2 := r2.takeWhile isNonSpace
        match chompClass isNonSpace r2 with
        | none => none
        | some r3 =>
          match chompClass isPySpace r3 with
          | none => none
          | some r4 =>
            let g3 := r4.takeWhile isNonSpace
            match chompClass isNonSpace r4 with
            | none => none
            | some r5 =>
              let r6 := r5.dropWhile isPySpace
              let g4 := r6.takeWhile isNonSpace
              some (String.mk g1, String.mk g2, String.mk g3, String.mk g4)

/-- `re.match(r"^(hdisk\S+)\s+(\S+)\s+(\S+)", line)` of the
`lspv -free` output: (name, pvid, size token). -/
def matchFreeKey (l : List Char) : Option (String × String × String) :=
  match matchPvKey l with
  | none => none
  | some (g1, g2, g3, _) => some (g1, g2, g3)

/-- Python `int()` applied to a `\S+` token: optional sign and a non-empty
run of decimal digits; anything else raises `ValueError`. -/
def pyInt (s : String) : Option Int :=
  match s.toList with
  | '+' :: ds => if ds ≠ [] ∧ ds.all isDig then some (digitsVal ds : Int) else none
  | '-' :: ds => if ds ≠ [] ∧ ds.all isDig then some (-(digitsVal ds : Int)) else none
  | ds => if ds ≠ [] ∧ ds.all isDig then some (digitsVal ds : Int) else none

/-- Association list in Python-dict insertion order: lookup of the first
(and, the way the source inserts, only) binding of a key. -/
def alookup {α β : Type} [DecidableEq α] (k : α) : List (α × β) → Option β
  | [] => none
  | (k', v) :: t => if k' = k then some v else alookup k t

/-- Python `d[k] = v`: replace in place when the key exists (its position
is kept), append otherwise. -/
def aset {α β : Type} [DecidableEq α] (k : α) (v : β) : List (α × β) → List (α × β)
  | [] => [(k, v)]
  | (k', v') :: t => if k' = k then (k, v) :: t else (k', v') :: aset k v t

/-- Python `d.keys()` in iteration order. -/
def akeys {α β : Type} (d : List (α × β)) : List α :=
  d.map Prod.fst

/-- Python `d.values()` in iteration order. -/
def avals {α β : Type} (d : List (α × β)) : List β :=
  d.map Prod.snd

/-- Result of one `module.run_command` call. -/
structure CmdOut where
  ret : Int
  stdout : String
  stderr : String
deriving DecidableEq

/-- The external world: each argument vector's (return code, stdout,
stderr).  The module runs synchronously, re-reading nothing, so a pure
mapping is faithful for one invocation. -/
def Env : Type :=
  List String → CmdOut

/-- The module's global `results` dictionary (`changed`, `msg`, `stdout`,
`stderr` as initialised in `main`), together with the messages written via
`module.log` and the trace of commands issued through
`module.run_command`. -/
structure ModuleState where
  changed : Bool
  msg : String
  stdout : String
  stderr : String
  log : List String
  trace : List (List String)
deriving DecidableEq

/-- `results` as `main` initialises it. -/
def initState : ModuleState :=
  { changed := false, msg := "", stdout := "", stderr := "", log := [], trace := [] }

/-- `module.run_command(cmd)`: consult the environment, record the call. -/
def runCmd (env : Env) (cmd : List String) (st : ModuleState) : CmdOut × ModuleState :=
  (env cmd, { st with trace := st.trace ++ [cmd] })

/-- The recurring failure report
`'Command \'{0}\' failed with return code {1}.'.format(' '.join(cmd), ret)`
together with the raw output stored into `results`. -/
def cmdFailState (st : ModuleState) (cmd : List String) (r : CmdOut) : ModuleState :=
  { st with
    stdout := r.stdout
    stderr := r.stderr
    msg := "Command '" ++ String.intercalate " " cmd ++ "' failed with return code "
      ++ toString r.ret ++ "." }

/-- The dictionary `check_rootvg` returns on success. -/
structure VgInfo where
  status : Nat
  copy_dict : List (Nat × String)
  rootvg_size : Int
  used_size : Int
deriving DecidableEq

/-- Outcome of `check_rootvg`: the returned dictionary, Python `None`
(the caller then calls `fail_json`), or an uncaught exception. -/
inductive CheckOut where
  | ok : VgInfo → CheckOut
  | failed : CheckOut
  | crash : CheckOut
deriving DecidableEq

/-- Whether `check_rootvg` produced a usable (status 0) dictionary. -/
def CheckOut.isOk : CheckOut → Bool
  | .ok _ => true
  | _ => false

/-- The `lsvg -M` parse loop of `check_rootvg` (lines 381-410): walk the
lines, keep the copy-1 logical-partition count `nb_lp`, the disk → copy
map `hdisk_dict` and the copy → disk map `copy_dict`; fail with the
source's message on an inconsistent mirror layout. -/
def scanMLines : List (List Char) → Nat → List (String × Nat) → List (Nat × String) →
    Except String (Nat × List (String × Nat) × List (Nat × String))
  | [], nb_lp, hdisk_dict, copy_dict => .ok (nb_lp, hdisk_dict, copy_dict)
  | l :: rest, nb_lp, hdisk_dict, copy_dict =>
    match parseMapLine l with
    | none => scanMLines rest nb_lp hdisk_dict copy_dict
    | some (hdisk, copy) =>
      let nb_lp := if copy = 1 then nb_lp + 1 else nb_lp
      match alookup hdisk hdisk_dict with
      | some c =>
        if c ≠ copy then
          .error ("rootvg data structure is not compatible with an "
            ++ "alt_disk_copy operation (2 copies on the same disk)")
        else
          if (alookup copy copy_dict).isSome then
            scanMLines rest nb_lp hdisk_dict copy_dict
          else if hdisk ∈ avals copy_dict then
            .error "rootvg data structure is not compatible with an alt_disk_copy operation"
          else
            scanMLines rest nb_lp hdisk_dict (copy_dict ++ [(copy, hdisk)])
      | none =>
        let hdisk_dict := hdisk_dict ++ [(hdisk, copy)]
        if (alookup copy copy_dict).isSome then
          scanMLines rest nb_lp hdisk_dict copy_dict
        else if hdisk ∈ avals copy_dict then
          .error "rootvg data structure is not compatible with an alt_disk_copy operation"
        else
          scanMLines rest nb_lp hdisk_dict (copy_dict ++ [(copy, hdisk)])

/-- The `lsvg -p` parse loop (lines 434-441): every matching line
overwrites `pv_size`; the loop breaks at the first line naming
`copy_dict[1]`.  `none` models the `KeyError` raised when a line matches
but `copy_dict` has no key 1. -/
def pvScan (copy_dict : List (Nat × String)) : List (List Char) → Int → Option Int
  | [], pv_size => some pv_size
  | l :: rest, pv_size =>
    match matchPhysKey l with
    | none => pvScan copy_dict rest pv_size
    | some (g1, g2) =>
      match alookup 1 copy_dict with
      | none => none
      | some d1 => if g1 = d1 then some g2 else pvScan copy_dict rest g2

/-- The `lsvg rootvg` parse loop (lines 458-468): last match wins for each
of the two fields, starting from the sentinel `-1`. -/
def vgSummaryScan : List (List Char) → Int → Int → Int × Int
  | [], total_size, pp_size => (total_size, pp_size)
  | l :: rest, total_size, pp_size =>
    match matchTotalPPs l with
    | some n => vgSummaryScan rest n pp_size
    | none =>
      match matchPpSize l with
      | some n => vgSummaryScan rest total_size n
      | none => vgSummaryScan rest total_size pp_size

/-- Argument vector of `lsvg -M rootvg`. -/
def cmdLsvgM : List String := ["/usr/sbin/lsvg", "-M", "rootvg"]

/-- Argument vector of `lsvg -p rootvg`. -/
def cmdLsvgP : List String := ["/usr/sbin/lsvg", "-p", "rootvg"]

/-- Argument vector of `lsvg rootvg`. -/
def cmdLsvgVg : List String := ["/usr/sbin/lsvg", "rootvg"]

/-- Argument vector of `ioscli lspv`. -/
def cmdLspv : List String := ["/usr/ios/cli/ioscli", "lspv"]

/-- Argument vector of `ioscli lspv -free`. -/
def cmdLspvFree : List String := ["/usr/ios/cli/ioscli", "lspv", "-free"]

/-- Argument vector of `alt_rootvg_op -X altinst_rootvg`. -/
def cmdAltRootvgOp : List String := ["/usr/sbin/alt_rootvg_op", "-X", "altinst_rootvg"]

/-- Argument vector of `unmirrorvg rootvg`. -/
def cmdUnmirror : List String := ["/usr/sbin/unmirrorvg", "rootvg"]

/-- Argument vector of `chpv -C <disk>`. -/
def cmdChpv (pv : String) : List String := ["/usr/sbin/chpv", "-C", pv]

/-- Argument vector of `alt_disk_copy -B -d <disks>`. -/
def cmdAltDiskCopy (hdisks : List String) : List String :=
  ["alt_disk_copy", "-B", "-d", String.intercalate " " hdisks]

/-- Tail of `check_rootvg` from the `lsvg rootvg` query on (lines
447-483): extract the total size and the PP size, require the PP size,
override the total with `pp_size * pv_size` when mirrored, and assemble
the returned dictionary. -/
def checkRootvgTail (env : Env) (st : ModuleState) (nb_lp : Nat)
    (copy_dict : List (Nat × String)) (pv_size : Int) : CheckOut × ModuleState :=
  let (r, st) := runCmd env cmdLsvgVg st
  if r.ret ≠ 0 then
    (.failed, cmdFailState st cmdLsvgVg r)
  else
    let tp := vgSummaryScan (pyLines r.stdout) (-1) (-1)
    if tp.2 = -1 then
      (.failed, { st with msg := "Failed to get rootvg pp size, parsing error" })
    else
      let total_size := if copy_dict.length > 1 then tp.2 * pv_size else tp.1
      (.ok { status := 0
             copy_dict := copy_dict
             rootvg_size := total_size
             used_size := tp.2 * ((nb_lp : Int) + 1) }, st)

/-- `check_rootvg(module)` (lines 315-483): query the rootvg
logical-partition map, reject stale partitions and inconsistent mirror
layouts, then compute the total and used sizes. -/
def check_rootvg (env : Env) (st : ModuleState) : CheckOut × ModuleState :=
  let (r, st) := runCmd env cmdLsvgM st
  if r.ret ≠ 0 then
    (.failed, cmdFailState st cmdLsvgM r)
  else if pyFind r.stdout "stale" > 0 then
    (.failed, { st with
                stdout := r.stdout
                stderr := r.stderr
                msg := "rootvg contains stale partitions" })
  else
    match scanMLines (pyLines r.stdout) 0 [] [] with
    | .error m => (.failed, { st with msg := m })
    | .ok (nb_lp, hdisk_dict, copy_dict) =>
      if copy_dict.length > 1 then
        if copy_dict.length ≠ hdisk_dict.length then
          (.failed, { st with msg :=
            "The rootvg is partially or completely mirrored but some "
            ++ "LP copies are spread on several disks. This prevents the "
            ++ "system from creating an alternate rootvg disk copy." })
        else
          let (rp, st) := runCmd env cmdLsvgP st
          if rp.ret ≠ 0 then
            (.failed, cmdFailState st cmdLsvgP rp)
          else
            match pvScan copy_dict (pyLines rp.stdout) (-1) with
            | none => (.crash, st)
            | some pv_size =>
              if pv_size = -1 then
                (.failed, { st with msg := "Failed to get pv size, parsing error" })
              else
                checkRootvgTail env st nb_lp copy_dict pv_size
      else
        checkRootvgTail env st nb_lp copy_dict (-1)

/-- Outcome of a module operation: normal return, `module.fail_json`
(terminal, carrying the final `results`), or an uncaught Python
exception. -/
inductive PyRes (α : Type) where
  | ok : α → PyRes α
  | fail : ModuleState → PyRes α
  | crash : PyRes α
deriving DecidableEq

/-- One `module.log` call. -/
def pyLog (st : ModuleState) (m : String) : ModuleState :=
  { st with log := st.log ++ [m] }

/-- One entry of the dictionary built by `get_pvs`. -/
structure PvInfo where
  pvid : String
  vg : String
  status : String
deriving DecidableEq

/-- One entry of the dictionary built by `get_free_pvs`. -/
structure FreePv where
  pvid : String
  size : Int
deriving DecidableEq

/-- `get_pvs(module)` (lines 101-133): run `lspv` and collect the
matching rows (`None` on a failing command). -/
def get_pvs (env : Env) (st : ModuleState) :
    Option (List (String × PvInfo)) × ModuleState :=
  let (r, st) := runCmd env cmdLspv st
  if r.ret ≠ 0 then
    (none, cmdFailState st cmdLspv r)
  else
    (some ((pyLines r.stdout).foldl (fun d l =>
      match matchPvKey l with
      | none => d
      | some (n, pvid, vg, status) => aset n ⟨pvid, vg, status⟩ d) []), st)

/-- The row collection of `get_free_pvs`; `none` models the `ValueError`
of `int()` on a non-numeric third token. -/
def buildFreePvs : List (List Char) → List (String × FreePv) →
    Option (List (String × FreePv))
  | [], d => some d
  | l :: rest, d =>
    match matchFreeKey l with
    | none => buildFreePvs rest d
    | some (n, pvid, szTok) =>
      match pyInt szTok with
      | none => none
      | some sz => buildFreePvs rest (aset n ⟨pvid, sz⟩ d)

/-- Outcome of `get_free_pvs`. -/
inductive FreeOut where
  | ok : List (String × FreePv) → FreeOut
  | failed : FreeOut
  | crash : FreeOut
deriving DecidableEq

/-- `get_free_pvs(module)` (lines 136-167): run `lspv -free` and collect
the matching rows. -/
def get_free_pvs (env : Env) (st : ModuleState) : FreeOut × ModuleState :=
  let (r, st) := runCmd env cmdLspvFree st
  if r.ret ≠ 0 then
    (.failed, cmdFailState st cmdLspvFree r)
  else
    match buildFreePvs (pyLines r.stdout) [] with
    | none => (.crash, st)
    | some d => (.ok d, st)

/-- First disk of the `lspv` dictionary owned by `altinst_rootvg`
(lines 190-194), `""` when there is none. -/
def firstAltdisk (pvs : List (String × PvInfo)) : String :=
  match pvs.find? (fun p => p.2.vg = "altinst_rootvg") with
  | some p => p.1
  | none => ""

/-- The disks of the `lspv` dictionary owned by `altinst_rootvg`, in
iteration order. -/
def altinstOf (pvs : List (String × PvInfo)) : List String :=
  (pvs.filter (fun p => p.2.vg = "altinst_rootvg")).map Prod.fst

/-- The per-disk `chpv -C` loop shared by the forced cleanup of
`find_valid_altdisk` (lines 212-222) and by `alt_disk_clean`
(lines 618-627): stop at the first failing command. -/
def clearLoop (env : Env) : List String → ModuleState → PyRes ModuleState
  | [], st => .ok st
  | pv :: rest, st =>
    let (r, st) := runCmd env (cmdChpv pv) st
    if r.ret ≠ 0 then .fail (cmdFailState st (cmdChpv pv) r)
    else clearLoop env rest st

/-- The pre-existing-alternate-disk handling of `find_valid_altdisk`
(lines 189-222): fail without `force`, otherwise remove the alternate VG,
mark the operation changed and clear each owning disk. -/
def altdiskCleanupStep (env : Env) (pvs : List (String × PvInfo)) (force : Bool)
    (st : ModuleState) : PyRes ModuleState :=
  if firstAltdisk pvs = "" then .ok st
  else if !force then
    .fail { st with msg := "An alternate disk already exists on disk " ++ firstAltdisk pvs }
  else
    let (r, st) := runCmd env cmdAltRootvgOp st
    if r.ret ≠ 0 then .fail (cmdFailState st cmdAltRootvgOp r)
    else clearLoop env (altinstOf pvs) { st with changed := true }

/-- Stable insertion of one free disk into a size-sorted list: after all
strictly smaller sizes and before equal ones, so the recursion below
reproduces Python's stable `sorted(pvs, key=lambda k: pvs[k]['size'])`. -/
def insertBySize (x : String × FreePv) : List (String × FreePv) → List (String × FreePv)
  | [] => [x]
  | y :: t => if x.2.size ≤ y.2.size then x :: y :: t else y :: insertBySize x t

/-- Python's stable ascending sort of the free-disk dictionary by size. -/
def sortBySize : List (String × FreePv) → List (String × FreePv)
  | [] => []
  | x :: t => insertBySize x (sortBySize t)

/-- The automatic-selection scan of `find_valid_altdisk` (lines 240-280):
walk the free disks in ascending size order carrying `prev_disk` and
`prev_diffsize`, returning (`selected_disk`, `prev_disk`) as they stand
when the loop stops. -/
def selectScan (policy : String) (used_size rootvg_size : Int) :
    List (String × FreePv) → String → Int → String × String
  | [], prev_disk, _ => ("", prev_disk)
  | (hdisk, info) :: rest, prev_disk, prev_diffsize =>
    if info.size < used_size then
      selectScan policy used_size rootvg_size rest prev_disk prev_diffsize
    else if policy = "minimize" then (hdisk, prev_disk)
    else
      let diffsize := info.size - rootvg_size
      if diffsize = 0 then (hdisk, prev_disk)
      else if diffsize > 0 then
        if policy = "upper" then (hdisk, prev_disk)
        else if policy = "lower" then
          if prev_disk = "" then (hdisk, prev_disk) else (prev_disk, prev_disk)
        else
          if prev_disk = "" then (hdisk, prev_disk)
          else if abs prev_diffsize > diffsize then (hdisk, prev_disk)
          else (prev_disk, prev_disk)
      else
        selectScan policy used_size rootvg_size rest hdisk diffsize

/-- The explicit-mode accumulation of `find_valid_altdisk`
(lines 297-303): the first unknown disk aborts, otherwise the capacities
add up. -/
def sumExplicit (pvs : List (String × FreePv)) : List String → Int → Except String Int
  | [], tot => .ok tot
  | h :: rest, tot =>
    match alookup h pvs with
    | none => .error h
    | some info => sumExplicit pvs rest (tot + info.size)

/-- The selection/validation tail of `find_valid_altdisk` from the free
inventory on (lines 227-312): reject an empty inventory, then either
select one disk automatically under the size policy or validate the
caller's list against the used/total rootvg sizes. -/
def selectDisks (hdisks : List String) (pvs : List (String × FreePv)) (policy : String)
    (used_size rootvg_size : Int) (st : ModuleState) : PyRes (List String × ModuleState) :=
  if pvs = [] then .fail { st with msg := "No free disk available" }
  else if hdisks = [] then
    let sp := selectScan policy used_size rootvg_size (sortBySize pvs) "" 0
    if sp.1 = "" then
      if sp.2 ≠ "" then .ok (hdisks ++ [sp.2], st)
      else
        let m := "No available alternate disk with size greater than "
          ++ toString rootvg_size ++ " MB found"
        .fail { st with msg := m }
    else .ok (hdisks ++ [sp.1], st)
  else
    match sumExplicit pvs hdisks 0 with
    | .error h =>
      .fail { st with msg := "Alternate disk " ++ h ++ " is either not found or not available" }
    | .ok tot_size =>
      if tot_size < rootvg_size then
        if tot_size ≥ used_size then
          .ok (hdisks, pyLog st "[WARNING] Alternate disks smaller than the current rootvg.")
        else
          .fail { st with msg := "Alternate disks too small (" ++ toString tot_size
            ++ " < " ++ toString rootvg_size ++ ")." }
      else .ok (hdisks, st)

/-- `find_valid_altdisk(module, hdisks, rootvg_info, disk_size_policy,
force)` (lines 170-312). -/
def find_valid_altdisk (env : Env) (hdisks : List String) (rootvg_info : VgInfo)
    (disk_size_policy : String) (force : Bool) (st : ModuleState) :
    PyRes (List String × ModuleState) :=
  if rootvg_info.status ≠ 0 then .fail { st with msg := "Wrong rootvg state" }
  else
    match get_pvs env st with
    | (none, st) => .fail st
    | (some pvs, st) =>
      match altdiskCleanupStep env pvs force st with
      | .crash => .crash
      | .fail st => .fail st
      | .ok st =>
        match get_free_pvs env st with
        | (.crash, _) => .crash
        | (.failed, st) => .fail st
        | (.ok fpvs, st) =>
          selectDisks hdisks fpvs disk_size_policy
            rootvg_info.used_size rootvg_info.rootvg_size st

/-- The unmirror step of `alt_disk_copy` (lines 514-536): a mirrored
rootvg needs `force`; `unmirrorvg` must exit 0 and print its textual
success marker on stderr. -/
def unmirrorStep (env : Env) (nb_copies : Nat) (force : Bool) (st : ModuleState) :
    PyRes ModuleState :=
  if nb_copies > 1 then
    if !force then
      .fail { st with msg := "The rootvg is mirrored and force option is not set" }
    else
      let st := pyLog st "[WARNING] Stopping mirror"
      let (r, st) := runCmd env cmdUnmirror st
      if r.ret ≠ 0 then .fail (cmdFailState st cmdUnmirror r)
      else if pyFind r.stderr "rootvg successfully unmirrored" = -1 then
        .fail { st with
                stdout := r.stdout
                stderr := r.stderr
                msg := "Failed to unmirror rootvg" }
      else .ok st
  else .ok st

/-- The `mirrorvg` argument vector rebuilt from `copy_dict`
(lines 549-551); `none` models the `KeyError` on a missing copy-2 (or,
with more than two copies, copy-3) entry.  The copy count placed in the
vector is stringified the way `run_command` renders non-string
arguments. -/
def mirrorCmdOf (copies_h : List (Nat × String)) : Option (List String) :=
  match alookup 2 copies_h with
  | none => none
  | some d2 =>
    let cmd := ["/usr/sbin/mirrorvg", "-m", "-c", toString copies_h.length, "rootvg", d2]
    if copies_h.length > 2 then
      match alookup 3 copies_h with
      | none => none
      | some d3 => some (cmd ++ [d3])
    else some cmd

/-- The mirror-restoration step of `alt_disk_copy` (lines 546-565): runs
whenever the rootvg had more than one copy; `mirrorvg` must exit 0 and
must not print its textual failure marker. -/
def restoreMirrorStep (env : Env) (copies_h : List (Nat × String)) (st : ModuleState) :
    PyRes ModuleState :=
  if copies_h.length > 1 then
    match mirrorCmdOf copies_h with
    | none => .crash
    | some cmd =>
      let (r, st) := runCmd env cmd st
      if r.ret ≠ 0 then .fail (cmdFailState st cmd r)
      else if pyFind r.stderr "Failed to mirror the volume group" ≠ -1 then
        .fail { st with
                stdout := r.stdout
                stderr := r.stderr
                msg := "Failed to mirror rootvg" }
      else .ok st
  else .ok st

/-- The copy phase of `alt_disk_copy` once the target disks are fixed
(lines 508-572): suspend mirroring when needed, run the low-level
`alt_disk_copy` command, always attempt mirror restoration afterwards,
and only then report the copy's own outcome. -/
def altDiskCopyPhase (env : Env) (hdisks : List String) (copies_h : List (Nat × String))
    (force : Bool) (st : ModuleState) : PyRes ModuleState :=
  match unmirrorStep env copies_h.length force st with
  | .crash => .crash
  | .fail st => .fail st
  | .ok st =>
    let ccmd := cmdAltDiskCopy hdisks
    let (rc, st) := runCmd env ccmd st
    let st := if rc.ret = 0 then { st with changed := true } else st
    match restoreMirrorStep env copies_h st with
    | .crash => .crash
    | .fail st => .fail st
    | .ok st =>
      let st := { st with stdout := rc.stdout, stderr := rc.stderr }
      if rc.ret ≠ 0 then
        let m := "Failed to copy " ++ String.intercalate " " hdisks
          ++ ": return code " ++ toString rc.ret ++ "."
        .fail { st with msg := m }
      else .ok st

/-- `alt_disk_copy(module, hdisks, disk_size_policy, force)`
(lines 486-572); a `None` target list is replaced by the empty list. -/
def alt_disk_copy (env : Env) (targets : Option (List String)) (disk_size_policy : String)
    (force : Bool) (st : ModuleState) : PyRes ModuleState :=
  match check_rootvg env st with
  | (.crash, _) => .crash
  | (.failed, st) => .fail st
  | (.ok rootvg_info, st) =>
    let hdisks := targets.getD []
    match find_valid_altdisk env hdisks rootvg_info disk_size_policy force st with
    | .crash => .crash
    | .fail st => .fail st
    | .ok (hdisks, st) =>
      altDiskCopyPhase env hdisks rootvg_info.copy_dict force st

/-- The target-validation loop of `alt_disk_clean` (lines 588-594): the
first caller-named disk that is unknown or does not belong to
`altinst_rootvg`. -/
def validateCleanTargets (pvs : List (String × PvInfo)) : List String → Option String
  | [] => none
  | h :: rest =>
    match alookup h pvs with
    | none => some h
    | some info =>
      if info.vg ≠ "altinst_rootvg" then some h else validateCleanTargets pvs rest

/-- `alt_disk_clean(module, hdisks)` (lines 575-629): determine the
alternate-VG disks, remove the alternate VG, clear each disk's owning-VG
tag, and only then mark the operation changed. -/
def alt_disk_clean (env : Env) (targets : List String) (st : ModuleState) :
    PyRes ModuleState :=
  match get_pvs env st with
  | (none, st) => .fail st
  | (some pvs, st) =>
    let picked : PyRes (List String × ModuleState) :=
      if targets ≠ [] then
        match validateCleanTargets pvs targets with
        | some h =>
          .fail { st with msg := "Specified disk " ++ h ++ " is not an alternate install rootvg" }
        | none => .ok (targets, st)
      else
        let hdisks := altinstOf pvs
        if hdisks = [] then .fail { st with msg := "There is no alternate install rootvg" }
        else .ok (hdisks, st)
    match picked with
    | .crash => .crash
    | .fail st => .fail st
    | .ok (hdisks, st) =>
      let (r, st) := runCmd env cmdAltRootvgOp st
      let st := { st with stdout := r.stdout, stderr := r.stderr }
      if r.ret ≠ 0 then .fail (cmdFailState st cmdAltRootvgOp r)
      else
        match clearLoop env hdisks st with
        | .crash => .crash
        | .fail st => .fail st
        | .ok st => .ok { st with changed := true }

/-- The copy-1 logical-partition count of a mirror map, as `check_rootvg`
accumulates it in `nb_lp`: one per parsed line whose copy number is 1. -/
def countLp (lines : List (List Char)) : Nat :=
  (lines.filterMap parseMapLine).countP (fun p => p.2 == 1)

/-- Total size extracted by the `lsvg rootvg` scan (`-1` when the
`TOTAL PPs` field never parses). -/
def summaryTotal (stdout : String) : Int :=
  (vgSummaryScan (pyLines stdout) (-1) (-1)).1

/-- PP size extracted by the `lsvg rootvg` scan (`-1` when the `PP SIZE`
field never parses). -/
def summaryPp (stdout : String) : Int :=
  (vgSummaryScan (pyLines stdout) (-1) (-1)).2

/-- TOTAL PPs column of the first `lsvg -p` row naming disk `d1`: the
value at which the source's scan breaks. -/
def firstPvTotal (lines : List (List Char)) (d1 : String) : Option Int :=
  lines.findSome? (fun l =>
    match matchPhysKey l with
    | some (g1, g2) => if g1 = d1 then some g2 else none
    | none => none)

/-- Environment of the C1 counterexample: the mirror map text is exactly
the marker `stale`, at character offset 0, and the rootvg summary
parses. -/
def envC1 : Env := fun cmd =>
  if cmd = cmdLsvgM then ⟨0, "stale", ""⟩
  else if cmd = cmdLsvgVg then ⟨0, "TOTAL PPs: 10 (320 megabytes)\nPP SIZE: 32 megabyte(s)", ""⟩
  else ⟨0, "", ""⟩

/-- Environment of the C1 witness: `stale` at a strictly positive
offset. -/
def envC1W : Env := fun cmd =>
  if cmd = cmdLsvgM then ⟨0, "hdisk8:255      hd1:99:2        stale", ""⟩
  else ⟨0, "", ""⟩

/-- Environment of the C4 counterexample: the summary has a PP SIZE line
but no parsable TOTAL PPs line. -/
def envC4 : Env := fun cmd =>
  if cmd = cmdLsvgM then ⟨0, "", ""⟩
  else if cmd = cmdLsvgVg then ⟨0, "PP SIZE: 32 megabyte(s)", ""⟩
  else ⟨0, "", ""⟩

/-- Environment of the C4 witness: the summary has a TOTAL PPs line but
no parsable PP SIZE line. -/
def envC4W : Env := fun cmd =>
  if cmd = cmdLsvgM then ⟨0, "", ""⟩
  else if cmd = cmdLsvgVg then ⟨0, "TOTAL PPs: 10 (320 megabytes)", ""⟩
  else ⟨0, "", ""⟩

/-- Environment of the C5 counterexample: a single mirror-map line whose
copy number is 2, and a parsable summary. -/
def envC5 : Env := fun cmd =>
  if cmd = cmdLsvgM then ⟨0, "hdisk4:257      hd10opt:1:2", ""⟩
  else if cmd = cmdLsvgVg then ⟨0, "TOTAL PPs: 10 (320 megabytes)\nPP SIZE: 32 megabyte(s)", ""⟩
  else ⟨0, "", ""⟩

/-- Environment of the C6 witness: a two-copy rootvg over `hdisk4` and
`hdisk8` with a parsable `lsvg -p` table and summary. -/
def envC6W : Env := fun cmd =>
  if cmd = cmdLsvgM then ⟨0, "hdisk4:453      hd1:101\nhdisk8:453      hd1:101:2", ""⟩
  else if cmd = cmdLsvgP then
    ⟨0, "hdisk4            active            639         254         126..00..00..00..128\nhdisk8            active            639         254         126..00..00..00..128", ""⟩
  else if cmd = cmdLsvgVg then
    ⟨0, "TOTAL PPs:      558 (285696 megabytes)\nPP SIZE:        512 megabyte(s)", ""⟩
  else ⟨0, "", ""⟩

/-- Environment of the C2 witness: unmirroring succeeds with its marker,
the low-level copy exits 1, mirror restoration succeeds silently. -/
def envC2W : Env := fun cmd =>
  if cmd = cmdUnmirror then ⟨0, "", "rootvg successfully unmirrored"⟩
  else if cmd = cmdAltDiskCopy ["hdisk2"] then ⟨1, "copy out", "copy err"⟩
  else ⟨0, "", ""⟩

/-- Environment of the C10 witness: one disk owns `altinst_rootvg`, the
alternate-VG removal succeeds, the per-disk clear fails. -/
def envC10W : Env := fun cmd =>
  if cmd = cmdLspv then ⟨0, "hdisk5           00c8cafe11111111                     altinst_rootvg   active", ""⟩
  else if cmd = cmdChpv "hdisk5" then ⟨1, "chpv out", "chpv err"⟩
  else ⟨0, "", ""⟩

/-- Free-disk inventory of the spec's policy example:
hdisk1 100 MB, hdisk2 150 MB, hdisk3 200 MB. -/
def pvs3 : List (String × FreePv) :=
  [("hdisk1", ⟨"none", 100⟩), ("hdisk2", ⟨"none", 150⟩), ("hdisk3", ⟨"none", 200⟩)]

/-- Environment of the C5 witness: the same disk appears with copy
numbers 1 and 2. -/
def envC5W : Env := fun cmd =>
  if cmd = cmdLsvgM then ⟨0, "hdisk4:1      hd1:1:1\nhdisk4:2      hd1:2:2", ""⟩
  else ⟨0, "", ""⟩

/-- The dictionary `check_rootvg` returns under `envC5`. -/
def infoC5 : VgInfo :=
  { status := 0, copy_dict := [(2, "hdisk4")], rootvg_size := 320, used_size := 32 }

/-- The module state after `check_rootvg` under `envC5` (only the trace
moved). -/
def stC5 : ModuleState :=
  { initState with trace := [cmdLsvgM, cmdLsvgVg] }

/-- The dictionary `check_rootvg` returns under `envC6W`. -/
def infoC6 : VgInfo :=
  { status := 0, copy_dict := [(1, "hdisk4"), (2, "hdisk8")],
    rootvg_size := 327168, used_size := 1024 }

/-- The module state after `check_rootvg` under `envC6W`. -/
def stC6 : ModuleState :=
  { initState with trace := [cmdLsvgM, cmdLsvgP, cmdLsvgVg] }

theorem alookup_eq_none_iff {α β : Type} [DecidableEq α] (k : α) (d : List (α × β)) :
    alookup k d = none ↔ k ∉ akeys d := by
  induction d with
  | nil => simp [alookup, akeys]
  | cons p t ih =>
    obtain ⟨k', v⟩ := p
    by_cases hk : k' = k
    · subst hk
      simp [alookup, akeys]
    · simp [alookup, akeys, hk, ih, Ne.symm hk]

theorem alookup_append_left {α β : Type} [DecidableEq α] (k : α) (v : β)
    (d e : List (α × β)) (h : alookup k d = some v) :
    alookup k (d ++ e) = some v := by
  induction d with
  | nil => simp [alookup] at h
  | cons p t ih =>
    obtain ⟨k', v'⟩ := p
    by_cases hk : k' = k
    · subst hk
      simp [alookup] at h ⊢
      exact h
    · simp [alookup, hk] at h ⊢
      exact ih h

theorem alookup_append_fresh {α β : Type} [DecidableEq α] (k : α) (v : β)
    (d : List (α × β)) (h : alookup k d = none) :
    alookup k (d ++ [(k, v)]) = some v := by
  induction d with
  | nil => simp [alookup]
  | cons p t ih =>
    obtain ⟨k', v'⟩ := p
    by_cases hk : k' = k
    · subst hk
      simp [alookup] at h
    · simp [alookup, hk] at h ⊢
      exact ih h

theorem akeys_append {α β : Type} (d e : List (α × β)) :
    akeys (d ++ e) = akeys d ++ akeys e := by
  simp [akeys]

theorem avals_append {α β : Type} (d e : List (α × β)) :
    avals (d ++ e) = avals d ++ avals e := by
  simp [avals]

theorem nodup_snoc_keys (cd : List (Nat × String)) (c : Nat) (h : String)
    (hk : (akeys cd).Nodup) (hno : alookup c cd = none) :
    (akeys (cd ++ [(c, h)])).Nodup := by
  rw [akeys_append, List.nodup_append]
  refine ⟨hk, by simp [akeys], ?_⟩
  intro x hx hx'
  simp only [akeys, List.map_cons, List.map_nil, List.mem_singleton] at hx'
  exact ((alookup_eq_none_iff c cd).mp hno) (hx' ▸ hx)

theorem nodup_snoc_vals (cd : List (Nat × String)) (c : Nat) (h : String)
    (hv : (avals cd).Nodup) (hno : h ∉ avals cd) :
    (avals (cd ++ [(c, h)])).Nodup := by
  rw [avals_append, List.nodup_append]
  refine ⟨hv, by simp [avals], ?_⟩
  intro x hx hx'
  simp only [avals, List.map_cons, List.map_nil, List.mem_singleton] at hx'
  exact hno (hx' ▸ hx)

theorem scanMLines_nodup (ls : List (List Char)) (nb : Nat) (hd : List (String × Nat))
    (cd : List (Nat × String)) (nb2 : Nat) (hd2 : List (String × Nat))
    (cd2 : List (Nat × String))
    (hok : scanMLines ls nb hd cd = .ok (nb2, hd2, cd2))
    (hk : (akeys cd).Nodup) (hv : (avals cd).Nodup) :
    (akeys cd2).Nodup ∧ (avals cd2).Nodup := by
  induction ls generalizing nb hd cd with
  | nil =>
    simp only [scanMLines, Except.ok.injEq, Prod.mk.injEq] at hok
    obtain ⟨-, -, h3⟩ := hok
    subst h3
    exact ⟨hk, hv⟩
  | cons l rest ih =>
    simp only [scanMLines] at hok
    cases hpl : parseMapLine l with
    | none =>
      rw [hpl] at hok
      exact ih _ _ _ hok hk hv
    | some pq =>
      obtain ⟨hdisk, copy⟩ := pq
      rw [hpl] at hok
      simp only at hok
      cases hhd : alookup hdisk hd with
      | some c =>
        rw [hhd] at hok
        dsimp only at hok
        by_cases hc : c ≠ copy
        · rw [if_pos hc] at hok
          exact absurd hok (by simp)
        · rw [if_neg hc] at hok
          by_cases hs : (alookup copy cd).isSome = true
          · rw [if_pos hs] at hok
            exact ih _ _ _ hok hk hv
          · rw [if_neg hs] at hok
            by_cases hm : hdisk ∈ avals cd
            · rw [if_pos hm] at hok
              exact absurd hok (by simp)
            · rw [if_neg hm] at hok
              exact ih _ _ _ hok
                (nodup_snoc_keys cd copy hdisk hk (Option.not_isSome_iff_eq_none.mp hs))
                (nodup_snoc_vals cd copy hdisk hv hm)
      | none =>
        rw [hhd] at hok
        dsimp only at hok
        by_cases hs : (alookup copy cd).isSome = true
        · rw [if_pos hs] at hok
          exact ih _ _ _ hok hk hv
        · rw [if_neg hs] at hok
          by_cases hm : hdisk ∈ avals cd
          · rw [if_pos hm] at hok
            exact absurd hok (by simp)
          · rw [if_neg hm] at hok
            exact ih _ _ _ hok
              (nodup_snoc_keys cd copy hdisk hk (Option.not_isSome_iff_eq_none.mp hs))
              (nodup_snoc_vals cd copy hdisk hv hm)

theorem scanMLines_lookup (ls : List (List Char)) (nb : Nat) (hd : List (String × Nat))
    (cd : List (Nat × String)) (nb2 : Nat) (hd2 : List (String × Nat))
    (cd2 : List (Nat × String))
    (hok : scanMLines ls nb hd cd = .ok (nb2, hd2, cd2)) :
    (∀ k v, alookup k hd = some v → alookup k hd2 = some v) ∧
    (∀ p ∈ ls.filterMap parseMapLine, alookup p.1 hd2 = some p.2) := by
  induction ls generalizing nb hd cd with
  | nil =>
    simp only [scanMLines, Except.ok.injEq, Prod.mk.injEq] at hok
    obtain ⟨-, h2, -⟩ := hok
    subst h2
    exact ⟨fun _ _ hv => hv, by simp⟩
  | cons l rest ih =>
    simp only [scanMLines] at hok
    cases hpl : parseMapLine l with
    | none =>
      rw [hpl] at hok
      obtain ⟨ih1, ih2⟩ := ih _ _ _ hok
      refine ⟨ih1, ?_⟩
      intro p hp
      rw [List.filterMap_cons, hpl] at hp
      exact ih2 p hp
    | some pq =>
      obtain ⟨hdisk, copy⟩ := pq
      rw [hpl] at hok
      dsimp only at hok
      cases hhd : alookup hdisk hd with
      | some c =>
        rw [hhd] at hok
        dsimp only at hok
        by_cases hc : c ≠ copy
        · rw [if_pos hc] at hok
          exact absurd hok (by simp)
        · rw [if_neg hc] at hok
          rw [not_ne_iff] at hc
          subst hc
          have step : ∀ nbx cdx, scanMLines rest nbx hd cdx = .ok (nb2, hd2, cd2) →
              (∀ k v, alookup k hd = some v → alookup k hd2 = some v) ∧
              (∀ p ∈ (l :: rest).filterMap parseMapLine, alookup p.1 hd2 = some p.2) := by
            intro nbx cdx hrec
            obtain ⟨ih1, ih2⟩ := ih _ _ _ hrec
            refine ⟨ih1, ?_⟩
            intro p hp
            rw [List.filterMap_cons, hpl] at hp
            rcases List.mem_cons.mp hp with hp | hp
            · subst hp
              exact ih1 hdisk c hhd
            · exact ih2 p hp
          by_cases hs : (alookup c cd).isSome = true
          · rw [if_pos hs] at hok
            exact step _ _ hok
          · rw [if_neg hs] at hok
            by_cases hm : hdisk ∈ avals cd
            · rw [if_pos hm] at hok
              exact absurd hok (by simp)
            · rw [if_neg hm] at hok
              exact step _ _ hok
      | none =>
        rw [hhd] at hok
        dsimp only at hok
        have step : ∀ nbx cdx,
            scanMLines rest nbx (hd ++ [(hdisk, copy)]) cdx = .ok (nb2, hd2, cd2) →
            (∀ k v, alookup k hd = some v → alookup k hd2 = some v) ∧
            (∀ p ∈ (l :: rest).filterMap parseMapLine, alookup p.1 hd2 = some p.2) := by
          intro nbx cdx hrec
          obtain ⟨ih1, ih2⟩ := ih _ _ _ hrec
          constructor
          · intro k v hv
            exact ih1 k v (alookup_append_left k v hd [(hdisk, copy)] hv)
          · intro p hp
            rw [List.filterMap_cons, hpl] at hp
            rcases List.mem_cons.mp hp with hp | hp
            · subst hp
              exact ih1 hdisk copy (alookup_append_fresh hdisk copy hd hhd)
            · exact ih2 p hp
        by_cases hs : (alookup copy cd).isSome = true
        · rw [if_pos hs] at hok
          exact step _ _ hok
        · rw [if_neg hs] at hok
          by_cases hm : hdisk ∈ avals cd
          · rw [if_pos hm] at hok
            exact absurd hok (by simp)
          · rw [if_neg hm] at hok
            exact step _ _ hok

theorem scanMLines_count (ls : List (List Char)) (nb : Nat) (hd : List (String × Nat))
    (cd : List (Nat × String)) (nb2 : Nat) (hd2 : List (String × Nat))
    (cd2 : List (Nat × String))
    (hok : scanMLines ls nb hd cd = .ok (nb2, hd2, cd2)) :
    nb2 = nb + (ls.filterMap parseMapLine).countP (fun p => p.2 == 1) := by
  induction ls generalizing nb hd cd with
  | nil =>
    simp only [scanMLines, Except.ok.injEq, Prod.mk.injEq] at hok
    obtain ⟨h1, -, -⟩ := hok
    simp [h1]
  | cons l rest ih =>
    simp only [scanMLines] at hok
    cases hpl : parseMapLine l with
    | none =>
      rw [hpl] at hok
      rw [List.filterMap_cons, hpl]
      exact ih _ _ _ hok
    | some pq =>
      obtain ⟨hdisk, copy⟩ := pq
      rw [hpl] at hok
      dsimp only at hok
      rw [List.filterMap_cons, hpl]
      have count_eq : ((hdisk, copy) :: rest.filterMap parseMapLine).countP
          (fun p => p.2 == 1) =
          (if copy = 1 then 1 else 0) + (rest.filterMap parseMapLine).countP
            (fun p => p.2 == 1) := by
        rw [List.countP_cons]
        by_cases h1 : copy = 1
        · simp [h1]
          omega
        · simp [h1]
      have step : ∀ cdx, scanMLines rest (if copy = 1 then nb + 1 else nb) hd cdx
            = .ok (nb2, hd2, cd2) →
          nb2 = nb + ((hdisk, copy) :: rest.filterMap parseMapLine).countP
            (fun p => p.2 == 1) := by
        intro cdx hrec
        have := ih _ _ _ hrec
        rw [count_eq]
        by_cases h1 : copy = 1 <;> simp only [h1, if_true, if_false] at this ⊢ <;> omega
      have step2 : ∀ hdx cdx, scanMLines rest (if copy = 1 then nb + 1 else nb) hdx cdx
            = .ok (nb2, hd2, cd2) →
          nb2 = nb + ((hdisk, copy) :: rest.filterMap parseMapLine).countP
            (fun p => p.2 == 1) := by
        intro hdx cdx hrec
        have := ih _ _ _ hrec
        rw [count_eq]
        by_cases h1 : copy = 1 <;> simp only [h1, if_true, if_false] at this ⊢ <;> omega
      cases hhd : alookup hdisk hd with
      | some c =>
        rw [hhd] at hok
        dsimp only at hok
        by_cases hc : c ≠ copy
        · rw [if_pos hc] at hok
          exact absurd hok (by simp)
        · rw [if_neg hc] at hok
          by_cases hs : (alookup copy cd).isSome = true
          · rw [if_pos hs] at hok
            exact step _ hok
          · rw [if_neg hs] at hok
            by_cases hm : hdisk ∈ avals cd
            · rw [if_pos hm] at hok
              exact absurd hok (by simp)
            · rw [if_neg hm] at hok
              exact step _ hok
      | none =>
        rw [hhd] at hok
        dsimp only at hok
        by_cases hs : (alookup copy cd).isSome = true
        · rw [if_pos hs] at hok
          exact step2 _ _ hok
        · rw [if_neg hs] at hok
          by_cases hm : hdisk ∈ avals cd
          · rw [if_pos hm] at hok
            exact absurd hok (by simp)
          · rw [if_neg hm] at hok
            exact step2 _ _ hok

theorem pvScan_first (cd : List (Nat × String)) (ls : List (List Char)) (d1 : String)
    (n pv0 : Int) (h1 : alookup 1 cd = some d1) (h2 : firstPvTotal ls d1 = some n) :
    pvScan cd ls pv0 = some n := by
  induction ls generalizing pv0 with
  | nil => simp [firstPvTotal] at h2
  | cons l rest ih =>
    simp only [pvScan]
    simp only [firstPvTotal, List.findSome?_cons] at h2
    cases hm : matchPhysKey l with
    | none =>
      rw [hm] at h2
      dsimp only at h2
      exact ih _ h2
    | some g =>
      obtain ⟨g1, g2⟩ := g
      rw [hm] at h2
      dsimp only at h2
      dsimp only
      rw [h1]
      dsimp only
      by_cases hg : g1 = d1
      · rw [if_pos hg] at h2
        rw [if_pos hg]
        dsimp only at h2
        exact h2
      · rw [if_neg hg] at h2
        rw [if_neg hg]
        dsimp only at h2
        exact ih _ h2

theorem checkRootvgTail_ok (env : Env) (st : ModuleState) (nb : Nat)
    (cd : List (Nat × String)) (pv : Int) (info : VgInfo) (st2 : ModuleState)
    (h : checkRootvgTail env st nb cd pv = (.ok info, st2)) :
    info.status = 0 ∧ info.copy_dict = cd ∧
    summaryPp (env cmdLsvgVg).stdout ≠ -1 ∧
    info.used_size = summaryPp (env cmdLsvgVg).stdout * ((nb : Int) + 1) ∧
    info.rootvg_size = (if cd.length > 1 then summaryPp (env cmdLsvgVg).stdout * pv
      else summaryTotal (env cmdLsvgVg).stdout) := by
  unfold checkRootvgTail runCmd at h
  dsimp only at h
  split at h
  · exact absurd h (by simp)
  · split at h
    · exact absurd h (by simp)
    · rename_i hpp
      simp only [Prod.mk.injEq, CheckOut.ok.injEq] at h
      obtain ⟨hinfo, -⟩ := h
      subst hinfo
      exact ⟨rfl, rfl, hpp, rfl, rfl⟩

theorem check_rootvg_ok_shape (env : Env) (st : ModuleState) (info : VgInfo)
    (st2 : ModuleState) (h : check_rootvg env st = (.ok info, st2)) :
    ∃ nb hd, scanMLines (pyLines (env cmdLsvgM).stdout) 0 [] [] = .ok (nb, hd, info.copy_dict) ∧
      info.status = 0 ∧
      summaryPp (env cmdLsvgVg).stdout ≠ -1 ∧
      info.used_size = summaryPp (env cmdLsvgVg).stdout * ((nb : Int) + 1) ∧
      (info.copy_dict.length > 1 →
        ∃ pv, pvScan info.copy_dict (pyLines (env cmdLsvgP).stdout) (-1) = some pv ∧
          info.rootvg_size = summaryPp (env cmdLsvgVg).stdout * pv) ∧
      (¬ info.copy_dict.length > 1 → info.rootvg_size = summaryTotal (env cmdLsvgVg).stdout) := by
  unfold check_rootvg runCmd at h
  dsimp only at h
  split at h
  · exact absurd h (by simp)
  · split at h
    · exact absurd h (by simp)
    · cases hscan : scanMLines (pyLines (env cmdLsvgM).stdout) 0 [] [] with
      | error m =>
        rw [hscan] at h
        exact absurd h (by simp)
      | ok t =>
        obtain ⟨nb, hd, cd⟩ := t
        rw [hscan] at h
        dsimp only at h
        split at h
        · -- mirrored branch
          rename_i hlen
          split at h
          · exact absurd h (by simp)
          · split at h
            · exact absurd h (by simp)
            · cases hpv : pvScan cd (pyLines (env cmdLsvgP).stdout) (-1) with
              | none =>
                rw [hpv] at h
                exact absurd h (by simp)
              | some pv =>
                rw [hpv] at h
                dsimp only at h
                split at h
                · exact absurd h (by simp)
                · obtain ⟨h1, h2, h3, h4, h5⟩ := checkRootvgTail_ok _ _ _ _ _ _ _ h
                  refine ⟨nb, hd, ?_, h1, h3, h4, ?_, ?_⟩
                  · rw [h2]
                  · intro _
                    refine ⟨pv, ?_, ?_⟩
                    · rw [h2]
                      exact hpv
                    · rw [h5, if_pos hlen]
                  · intro hc
                    rw [h2] at hc
                    exact absurd hlen hc
        · -- unmirrored branch
          rename_i hlen
          obtain ⟨h1, h2, h3, h4, h5⟩ := checkRootvgTail_ok _ _ _ _ _ _ _ h
          refine ⟨nb, hd, ?_, h1, h3, h4, ?_, ?_⟩
          · rw [h2]
          · intro hc
            rw [h2] at hc
            exact absurd hc hlen
          · intro _
            rw [h5, if_neg hlen]

theorem checkRootvgTail_pp_absent (env : Env) (st : ModuleState) (nb : Nat)
    (cd : List (Nat × String)) (pv : Int)
    (h : summaryPp (env cmdLsvgVg).stdout = -1) :
    (checkRootvgTail env st nb cd pv).1 = CheckOut.failed := by
  unfold checkRootvgTail runCmd
  dsimp only
  split
  · rfl
  · simp only [summaryPp] at h
    rw [if_pos h]

/-- C1 (counterexample): a mirror-map text that starts with the literal
marker `stale` (first occurrence at character offset 0) is NOT judged
unsafe: `check_rootvg` runs through and returns an OK (status 0) result,
because the source tests `stdout.find('stale') > 0` rather than `>= 0`. -/
theorem c1_stale_at_start_ok :
    pyFind (envC1 cmdLsvgM).stdout "stale" = 0 ∧
    (check_rootvg envC1 initState).1 =
      CheckOut.ok { status := 0, copy_dict := [], rootvg_size := 320, used_size := 32 } := by
  constructor
  · decide
  · decide

/-- C1 (amended): whenever the `lsvg -M rootvg` text contains the literal
substring `stale` with its first occurrence at a strictly positive
character offset, `check_rootvg` returns a failed (not-OK) status,
regardless of any other content of the text. -/
theorem c1_stale_positive_failed (env : Env) (st : ModuleState)
    (h : pyFind (env cmdLsvgM).stdout "stale" > 0) :
    (check_rootvg env st).1 = CheckOut.failed := by
  unfold check_rootvg runCmd
  dsimp only
  rw [if_pos h]
  split <;> rfl

/-- C1 (witness): a concrete mirror-map line carrying a mid-line `stale`
marker is rejected. -/
theorem c1_stale_positive_failed_witness :
    pyFind (envC1W cmdLsvgM).stdout "stale" > 0 ∧
    (check_rootvg envC1W initState).1 = CheckOut.failed :=
  ⟨by decide, c1_stale_positive_failed envC1W initState (by decide)⟩

/-- C4 (counterexample): a rootvg summary whose `TOTAL PPs` field is
absent is not a parse failure: with an unmirrored map, `check_rootvg`
returns an OK (status 0) result whose total size is the untouched
sentinel `-1`, because only the PP-size field is checked. -/
theorem c4_total_absent_ok :
    summaryTotal (envC4 cmdLsvgVg).stdout = -1 ∧
    (check_rootvg envC4 initState).1 =
      CheckOut.ok { status := 0, copy_dict := [], rootvg_size := -1, used_size := 32 } := by
  constructor
  · decide
  · decide

/-- C4 (amended): the PP-size field alone is required: whenever the
`lsvg rootvg` summary has no parsable `PP SIZE` line (the scan keeps its
`-1` sentinel), `check_rootvg` never returns an OK result.  The total
size is not an independently required field. -/
theorem c4_pp_absent_not_ok (env : Env) (st : ModuleState)
    (h : summaryPp (env cmdLsvgVg).stdout = -1) :
    (check_rootvg env st).1.isOk = false := by
  unfold check_rootvg runCmd
  dsimp only
  split
  · rfl
  · split
    · rfl
    · split
      · rfl
      · rename_i nb hd cd
        split
        · split
          · rfl
          · split
            · rfl
            · split
              · rfl
              · split
                · rfl
                · rw [checkRootvgTail_pp_absent _ _ _ _ _ h]
                  rfl
        · rw [checkRootvgTail_pp_absent _ _ _ _ _ h]
          rfl

/-- C4 (witness): a concrete summary with a `TOTAL PPs` line but no
`PP SIZE` line makes the inspection fail. -/
theorem c4_pp_absent_not_ok_witness :
    summaryPp (envC4W cmdLsvgVg).stdout = -1 ∧
    (check_rootvg envC4W initState).1.isOk = false :=
  ⟨by decide, c4_pp_absent_not_ok envC4W initState (by decide)⟩

/-- C5 (counterexample): `check_rootvg` returns OK with a copy map whose
single copy number is 2: copy numbers need not be contiguous nor start
at 1. -/
theorem c5_noncontiguous_ok :
    (check_rootvg envC5 initState).1 = CheckOut.ok infoC5 ∧
    alookup 1 infoC5.copy_dict = (none : Option String) := by
  constructor
  · decide
  · decide

/-- C5 (amended): every copy map returned with OK status binds distinct
copy numbers to pairwise-distinct disks (a disk sits in at most one copy
slot), and the inspection never returns OK when some disk appears in the
mirror map under two different copy numbers; but copy numbers need not be
contiguous starting at 1. -/
theorem c5_copy_map_disk_unique :
    (∀ env st info st2, check_rootvg env st = (CheckOut.ok info, st2) →
      (akeys info.copy_dict).Nodup ∧ (avals info.copy_dict).Nodup) ∧
    (∀ env st hdisk c c',
      (hdisk, c) ∈ (pyLines (env cmdLsvgM).stdout).filterMap parseMapLine →
      (hdisk, c') ∈ (pyLines (env cmdLsvgM).stdout).filterMap parseMapLine →
      c ≠ c' → (check_rootvg env st).1.isOk = false) := by
  constructor
  · intro env st info st2 h
    obtain ⟨nb, hd, hscan, -⟩ := check_rootvg_ok_shape env st info st2 h
    exact scanMLines_nodup _ _ _ _ _ _ _ hscan (by simp [akeys]) (by simp [avals])
  · intro env st hdisk c c' hc hc' hne
    rcases hr : check_rootvg env st with ⟨co, st2⟩
    cases co with
    | failed => rfl
    | crash => rfl
    | ok info =>
      exfalso
      obtain ⟨nb, hd, hscan, -⟩ := check_rootvg_ok_shape env st info st2 hr
      obtain ⟨-, h2⟩ := scanMLines_lookup _ _ _ _ _ _ _ hscan
      have e1 := h2 (hdisk, c) hc
      have e2 := h2 (hdisk, c') hc'
      rw [e1] at e2
      exact hne (Option.some.inj e2)

/-- C5 (witness): the uniqueness facts instantiated on the `envC5` run,
and a map listing one disk under copies 1 and 2 rejected. -/
theorem c5_copy_map_disk_unique_witness :
    ((akeys infoC5.copy_dict).Nodup ∧ (avals infoC5.copy_dict).Nodup) ∧
    (check_rootvg envC5W initState).1.isOk = false :=
  ⟨c5_copy_map_disk_unique.1 envC5 initState infoC5 stC5 (by decide),
   c5_copy_map_disk_unique.2 envC5W initState "hdisk4" 1 2 (by decide) (by decide)
     (by decide)⟩

/-- C6: for every OK inspection, the used size is the PP size times the
number of copy-1 logical partitions plus one; the total size is the PP
size times the copy-1 disk's TOTAL PPs column when more than one copy
number was observed, and the rootvg-level summary total otherwise. -/
theorem c6_sizes (env : Env) (st : ModuleState) (info : VgInfo) (st2 : ModuleState)
    (h : check_rootvg env st = (CheckOut.ok info, st2)) :
    info.used_size = summaryPp (env cmdLsvgVg).stdout
      * ((countLp (pyLines (env cmdLsvgM).stdout) : Int) + 1) ∧
    (info.copy_dict.length > 1 →
      ∀ d1 n, alookup 1 info.copy_dict = some d1 →
        firstPvTotal (pyLines (env cmdLsvgP).stdout) d1 = some n →
        info.rootvg_size = summaryPp (env cmdLsvgVg).stdout * n) ∧
    (info.copy_dict.length ≤ 1 → info.rootvg_size = summaryTotal (env cmdLsvgVg).stdout) := by
  obtain ⟨nb, hd, hscan, hst, hpp, hused, hmir, hunmir⟩ := check_rootvg_ok_shape env st info st2 h
  have hcount := scanMLines_count _ _ _ _ _ _ _ hscan
  have hnb : nb = countLp (pyLines (env cmdLsvgM).stdout) := by
    rw [hcount]
    simp [countLp]
  refine ⟨?_, ?_, ?_⟩
  · rw [hused, hnb]
  · intro hlen d1 n h1 h2
    obtain ⟨pv, hpv, hroot⟩ := hmir hlen
    have hfirst := pvScan_first info.copy_dict (pyLines (env cmdLsvgP).stdout) d1 n (-1) h1 h2
    rw [hpv] at hfirst
    rw [hroot, Option.some.inj hfirst]
  · intro hle
    exact hunmir (by omega)

/-- C6 (witness): the size equations instantiated on a concrete two-copy
rootvg (PP size 512, copy-1 disk `hdisk4` with 639 partitions, one copy-1
logical partition). -/
theorem c6_sizes_witness :
    infoC6.used_size = summaryPp (envC6W cmdLsvgVg).stdout
      * ((countLp (pyLines (envC6W cmdLsvgM).stdout) : Int) + 1) ∧
    infoC6.rootvg_size = summaryPp (envC6W cmdLsvgVg).stdout * 639 :=
  ⟨(c6_sizes envC6W initState infoC6 stC6 (by decide)).1,
   (c6_sizes envC6W initState infoC6 stC6 (by decide)).2.1 (by decide) "hdisk4" 639
     (by decide) (by decide)⟩

/-- C3 (counterexample): on the inventory {hdisk1:100, hdisk2:150,
hdisk3:200} with used = 90 and total = 140, policy `upper` selects
hdisk2 (the first disk strictly above the total), not hdisk3, and policy
`lower` selects hdisk1 (the recorded sub-total disk), not hdisk2. -/
theorem c3_policy_example_refuted :
    selectDisks [] pvs3 "upper" 90 140 initState = .ok (["hdisk2"], initState) ∧
    selectDisks [] pvs3 "lower" 90 140 initState = .ok (["hdisk1"], initState) ∧
    ("hdisk2" : String) ≠ "hdisk3" ∧ ("hdisk1" : String) ≠ "hdisk2" := by
  refine ⟨by decide, by decide, by decide, by decide⟩

/-- C3 (amended): on the spec's example inventory with used = 90: with
total = 150, `minimize` selects hdisk1 and `upper` selects hdisk2 (exact
match, diff = 0); with total = 140, `upper` selects hdisk2, `lower`
selects hdisk1, and `nearest` selects hdisk2. -/
theorem c3_policy_example :
    selectDisks [] pvs3 "minimize" 90 150 initState = .ok (["hdisk1"], initState) ∧
    selectDisks [] pvs3 "upper" 90 150 initState = .ok (["hdisk2"], initState) ∧
    selectDisks [] pvs3 "upper" 90 140 initState = .ok (["hdisk2"], initState) ∧
    selectDisks [] pvs3 "lower" 90 140 initState = .ok (["hdisk1"], initState) ∧
    selectDisks [] pvs3 "nearest" 90 140 initState = .ok (["hdisk2"], initState) := by
  refine ⟨by decide, by decide, by decide, by decide, by decide⟩

theorem mem_insertBySize (x p : String × FreePv) (l : List (String × FreePv)) :
    p ∈ insertBySize x l ↔ p = x ∨ p ∈ l := by
  induction l with
  | nil => simp [insertBySize]
  | cons y t ih =>
    simp only [insertBySize]
    split
    · simp [List.mem_cons]
    · simp only [List.mem_cons, ih]
      tauto

theorem mem_sortBySize (p : String × FreePv) (l : List (String × FreePv)) :
    p ∈ sortBySize l ↔ p ∈ l := by
  induction l with
  | nil => simp [sortBySize]
  | cons y t ih =>
    simp only [sortBySize, mem_insertBySize, List.mem_cons, ih]

theorem selectScan_all_small (policy : String) (used total : Int)
    (l : List (String × FreePv)) (prev : String) (pd : Int)
    (h : ∀ p ∈ l, p.2.size < used) :
    selectScan policy used total l prev pd = ("", prev) := by
  induction l generalizing prev pd with
  | nil => rfl
  | cons p t ih =>
    obtain ⟨hdisk, info⟩ := p
    simp only [selectScan]
    rw [if_pos (h (hdisk, info) (by simp))]
    exact ih _ _ (fun q hq => h q (List.mem_cons_of_mem _ hq))

/-- C8: on every free-disk inventory in which each disk is strictly
smaller than the rootvg used size, automatic selection (no caller disks)
fails with one of the two no-candidate reports and selects nothing. -/
theorem c8_no_candidate (pvs : List (String × FreePv)) (policy : String)
    (used total : Int) (st : ModuleState)
    (h : ∀ p ∈ pvs, p.2.size < used) :
    ∃ st2, selectDisks [] pvs policy used total st = .fail st2 ∧
      (st2.msg = "No free disk available" ∨
       st2.msg = "No available alternate disk with size greater than "
         ++ toString total ++ " MB found") := by
  unfold selectDisks
  by_cases hp : pvs = []
  · rw [if_pos hp]
    exact ⟨_, rfl, Or.inl rfl⟩
  · rw [if_neg hp, if_pos rfl]
    dsimp only
    rw [selectScan_all_small policy used total (sortBySize pvs) "" 0
      (fun p hp' => h p ((mem_sortBySize p pvs).mp hp'))]
    dsimp only
    exact ⟨_, rfl, Or.inr rfl⟩

/-- C8 (witness): a 50 MB free disk cannot host a 90 MB used rootvg. -/
theorem c8_no_candidate_witness :
    ∃ st2, selectDisks [] [("hdisk9", ⟨"none", 50⟩)] "nearest" 90 150 initState = .fail st2 ∧
      (st2.msg = "No free disk available" ∨
       st2.msg = "No available alternate disk with size greater than "
         ++ toString (150 : Int) ++ " MB found") :=
  c8_no_candidate [("hdisk9", ⟨"none", 50⟩)] "nearest" 90 150 initState (by decide)

/-- C9: automatic selection returns exactly one target disk: every
successful run of the selection tail with an empty caller list yields a
singleton disk list, whatever the inventory and the policy. -/
theorem c9_auto_selects_one (pvs : List (String × FreePv)) (policy : String)
    (used total : Int) (st : ModuleState) (hd : List String) (st2 : ModuleState)
    (h : selectDisks [] pvs policy used total st = .ok (hd, st2)) :
    hd.length = 1 := by
  unfold selectDisks at h
  split at h
  · exact absurd h (by simp)
  · rw [if_pos rfl] at h
    dsimp only at h
    split at h
    · split at h
      · simp only [PyRes.ok.injEq, Prod.mk.injEq] at h
        obtain ⟨h1, -⟩ := h
        subst h1
        rfl
      · exact absurd h (by simp)
    · simp only [PyRes.ok.injEq, Prod.mk.injEq] at h
      obtain ⟨h1, -⟩ := h
      subst h1
      rfl

/-- C9 (witness): on the example inventory the selected list is a
singleton. -/
theorem c9_auto_selects_one_witness : (["hdisk2"] : List String).length = 1 :=
  c9_auto_selects_one pvs3 "nearest" 90 140 initState ["hdisk2"] initState (by decide)

/-- C7: in explicit mode with every named disk free and a coherent
rootvg (used size at most total size), a capacity sum below the used
size is a fatal too-small failure, while a sum at least the used size
but below the total size succeeds with the degraded-capacity warning
logged. -/
theorem c7_explicit_capacity (hdisks : List String) (pvs : List (String × FreePv))
    (policy : String) (used total : Int) (st : ModuleState) (tot : Int)
    (hne : hdisks ≠ [])
    (hsum : sumExplicit pvs hdisks 0 = .ok tot)
    (hut : used ≤ total) :
    (tot < used →
      ∃ st2, selectDisks hdisks pvs policy used total st = .fail st2 ∧
        st2.msg = "Alternate disks too small (" ++ toString tot ++ " < "
          ++ toString total ++ ").") ∧
    (used ≤ tot → tot < total →
      selectDisks hdisks pvs policy used total st =
        .ok (hdisks, pyLog st "[WARNING] Alternate disks smaller than the current rootvg.")) := by
  have hpvs : pvs ≠ [] := by
    intro hp
    subst hp
    cases hdisks with
    | nil => exact hne rfl
    | cons a t => simp [sumExplicit, alookup] at hsum
  unfold selectDisks
  rw [if_neg hpvs, if_neg hne, hsum]
  dsimp only
  constructor
  · intro hlt
    rw [if_pos (by omega : tot < total), if_neg (by omega : ¬ tot ≥ used)]
    exact ⟨_, rfl, rfl⟩
  · intro h1 h2
    rw [if_pos h2, if_pos (by omega : tot ≥ used)]

/-- C7 (witness): the spec's explicit-disk example: 80 MB against
used = 90 fails; 120 MB against used = 90, total = 150 warns and
succeeds. -/
theorem c7_explicit_capacity_witness :
    (∃ st2, selectDisks ["hdiskX"] [("hdiskX", ⟨"none", 80⟩)] "nearest" 90 150 initState
        = .fail st2 ∧
      st2.msg = "Alternate disks too small (" ++ toString (80 : Int) ++ " < "
        ++ toString (150 : Int) ++ ").") ∧
    selectDisks ["hdiskX"] [("hdiskX", ⟨"none", 120⟩)] "nearest" 90 150 initState =
      .ok (["hdiskX"], pyLog initState "[WARNING] Alternate disks smaller than the current rootvg.") :=
  ⟨(c7_explicit_capacity ["hdiskX"] [("hdiskX", ⟨"none", 80⟩)] "nearest" 90 150 initState 80
      (by decide) (by rfl) (by decide)).1 (by decide),
   (c7_explicit_capacity ["hdiskX"] [("hdiskX", ⟨"none", 120⟩)] "nearest" 90 150 initState 120
      (by decide) (by rfl) (by decide)).2 (by decide) (by decide)⟩

/-- C2: once mirroring was suspended (more than one copy, `force`, and a
successful `unmirrorvg` with its marker), the restore command is issued
exactly once — after the copy command — whatever the copy's outcome; when
restoration succeeds but the copy exited non-zero, the final report is
the copy's own failure; when restoration fails, its failure is the final
report whatever the copy's exit code. -/
theorem c2_restore_always (env : Env) (hdisks : List String)
    (copies_h : List (Nat × String)) (st : ModuleState) (mcmd : List String)
    (hn : copies_h.length > 1)
    (hm : mirrorCmdOf copies_h = some mcmd)
    (hu1 : (env cmdUnmirror).ret = 0)
    (hu2 : pyFind (env cmdUnmirror).stderr "rootvg successfully unmirrored" ≠ -1) :
    (∃ st2, (altDiskCopyPhase env hdisks copies_h true st = .ok st2 ∨
             altDiskCopyPhase env hdisks copies_h true st = .fail st2) ∧
      st2.trace = st.trace ++ [cmdUnmirror, cmdAltDiskCopy hdisks, mcmd]) ∧
    ((env mcmd).ret = 0 →
      pyFind (env mcmd).stderr "Failed to mirror the volume group" = -1 →
      (env (cmdAltDiskCopy hdisks)).ret ≠ 0 →
      ∃ st2, altDiskCopyPhase env hdisks copies_h true st = .fail st2 ∧
        st2.msg = "Failed to copy " ++ String.intercalate " " hdisks
          ++ ": return code " ++ toString (env (cmdAltDiskCopy hdisks)).ret ++ ".") ∧
    (((env mcmd).ret ≠ 0 ∨
        pyFind (env mcmd).stderr "Failed to mirror the volume group" ≠ -1) →
      ∃ st2, altDiskCopyPhase env hdisks copies_h true st = .fail st2 ∧
        (st2.msg = "Command '" ++ String.intercalate " " mcmd
            ++ "' failed with return code " ++ toString (env mcmd).ret ++ "." ∨
         st2.msg = "Failed to mirror rootvg")) := by
  have hun : unmirrorStep env copies_h.length true st =
      .ok { st with log := st.log ++ ["[WARNING] Stopping mirror"],
                    trace := st.trace ++ [cmdUnmirror] } := by
    simp [unmirrorStep, runCmd, pyLog, hn, hu1, hu2]
  have hres : ∀ stx : ModuleState, restoreMirrorStep env copies_h stx =
      (if (env mcmd).ret ≠ 0 then
        .fail (cmdFailState { stx with trace := stx.trace ++ [mcmd] } mcmd (env mcmd))
      else if pyFind (env mcmd).stderr "Failed to mirror the volume group" ≠ -1 then
        .fail { stx with
                stdout := (env mcmd).stdout
                stderr := (env mcmd).stderr
                msg := "Failed to mirror rootvg"
                trace := stx.trace ++ [mcmd] }
      else .ok { stx with trace := stx.trace ++ [mcmd] }) := by
    intro stx
    unfold restoreMirrorStep runCmd
    rw [if_pos hn, hm]
  unfold altDiskCopyPhase runCmd
  rw [hun]
  dsimp only
  by_cases hcr : (env (cmdAltDiskCopy hdisks)).ret = 0
  · rw [if_pos hcr, hres]
    by_cases hmr : (env mcmd).ret ≠ 0
    · rw [if_pos hmr]
      dsimp only
      refine ⟨⟨_, Or.inr rfl, by simp [cmdFailState]⟩, ?_, ?_⟩
      · intro _ _ hc
        exact absurd hcr hc
      · intro _
        exact ⟨_, rfl, Or.inl rfl⟩
    · rw [if_neg hmr]
      by_cases hmf : pyFind (env mcmd).stderr "Failed to mirror the volume group" ≠ -1
      · rw [if_pos hmf]
        dsimp only
        refine ⟨⟨_, Or.inr rfl, by simp⟩, ?_, ?_⟩
        · intro _ _ hc
          exact absurd hcr hc
        · intro _
          exact ⟨_, rfl, Or.inr rfl⟩
      · rw [if_neg hmf]
        dsimp only
        rw [if_neg (by simp [hcr])]
        refine ⟨⟨_, Or.inl rfl, by simp⟩, ?_, ?_⟩
        · intro _ _ hc
          exact absurd hcr hc
        · intro hc
          rcases hc with hc | hc
          · exact absurd hc hmr
          · exact absurd hc hmf
  · rw [if_neg hcr, hres]
    by_cases hmr : (env mcmd).ret ≠ 0
    · rw [if_pos hmr]
      dsimp only
      refine ⟨⟨_, Or.inr rfl, by simp [cmdFailState]⟩, ?_, ?_⟩
      · intro hz _ _
        exact absurd hz hmr
      · intro _
        exact ⟨_, rfl, Or.inl rfl⟩
    · rw [if_neg hmr]
      by_cases hmf : pyFind (env mcmd).stderr "Failed to mirror the volume group" ≠ -1
      · rw [if_pos hmf]
        dsimp only
        refine ⟨⟨_, Or.inr rfl, by simp⟩, ?_, ?_⟩
        · intro _ hz _
          exact absurd hz hmf
        · intro _
          exact ⟨_, rfl, Or.inr rfl⟩
      · rw [if_neg hmf]
        dsimp only
        rw [if_pos hcr]
        refine ⟨⟨_, Or.inr rfl, by simp⟩, ?_, ?_⟩
        · intro _ _ _
          exact ⟨_, rfl, rfl⟩
        · intro hc
          rcases hc with hc | hc
          · exact absurd hc hmr
          · exact absurd hc hmf

theorem get_pvs_changed (env : Env) (st : ModuleState) :
    (get_pvs env st).2.changed = st.changed := by
  unfold get_pvs runCmd cmdFailState
  dsimp only
  split <;> rfl

theorem clearLoop_changed (env : Env) (l : List String) (st : ModuleState) :
    (∀ st2, clearLoop env l st = .ok st2 → st2.changed = st.changed) ∧
    (∀ st2, clearLoop env l st = .fail st2 → st2.changed = st.changed) := by
  induction l generalizing st with
  | nil =>
    constructor
    · intro st2 h
      simp only [clearLoop, PyRes.ok.injEq] at h
      rw [h]
    · intro st2 h
      exact absurd h (by simp [clearLoop])
  | cons pv rest ih =>
    constructor
    · intro st2 h
      simp only [clearLoop, runCmd] at h
      split at h
      · exact absurd h (by simp)
      · exact (ih { st with trace := st.trace ++ [cmdChpv pv] }).1 st2 h
    · intro st2 h
      simp only [clearLoop, runCmd] at h
      split at h
      · simp only [PyRes.fail.injEq] at h
        rw [← h]
        rfl
      · exact (ih { st with trace := st.trace ++ [cmdChpv pv] }).2 st2 h

/-- C10: in the clean operation (fresh `results`, `changed = false`), the
changed flag ends true exactly on full success: every normal return
carries `changed = true`, and every failure report — including a per-disk
clear failing after the alternate-VG removal already succeeded — carries
`changed = false`. -/
theorem c10_clean_changed (env : Env) (targets : List String) (st : ModuleState)
    (hch : st.changed = false) :
    (∀ st2, alt_disk_clean env targets st = .ok st2 → st2.changed = true) ∧
    (∀ st2, alt_disk_clean env targets st = .fail st2 → st2.changed = false) := by
  unfold alt_disk_clean runCmd
  rcases hg : get_pvs env st with ⟨opt, st1⟩
  have hch1 : st1.changed = false := by
    have hp := get_pvs_changed env st
    rw [hg, hch] at hp
    exact hp
  cases opt with
  | none =>
    dsimp only
    exact ⟨fun st2 h => absurd h (by simp),
           fun st2 h => by
             simp only [PyRes.fail.injEq] at h
             rw [← h]
             exact hch1⟩
  | some pvs =>
    dsimp only
    have tail : ∀ hds : List String,
        (∀ st2, (match clearLoop env hds
              { st1 with stdout := (env cmdAltRootvgOp).stdout
                         stderr := (env cmdAltRootvgOp).stderr
                         trace := st1.trace ++ [cmdAltRootvgOp] } with
            | PyRes.crash => PyRes.crash
            | PyRes.fail stf => PyRes.fail stf
            | PyRes.ok sto => PyRes.ok { sto with changed := true }) = PyRes.ok st2 →
          st2.changed = true) ∧
        (∀ st2, (match clearLoop env hds
              { st1 with stdout := (env cmdAltRootvgOp).stdout
                         stderr := (env cmdAltRootvgOp).stderr
                         trace := st1.trace ++ [cmdAltRootvgOp] } with
            | PyRes.crash => PyRes.crash
            | PyRes.fail stf => PyRes.fail stf
            | PyRes.ok sto => PyRes.ok { sto with changed := true }) = PyRes.fail st2 →
          st2.changed = false) := by
      intro hds
      constructor
      · intro st2 h
        cases hcl : clearLoop env hds
            { st1 with stdout := (env cmdAltRootvgOp).stdout
                       stderr := (env cmdAltRootvgOp).stderr
                       trace := st1.trace ++ [cmdAltRootvgOp] } with
        | crash => rw [hcl] at h; exact absurd h (by simp)
        | fail stf => rw [hcl] at h; exact absurd h (by simp)
        | ok sto =>
          rw [hcl] at h
          simp only [PyRes.ok.injEq] at h
          rw [← h]
      · intro st2 h
        cases hcl : clearLoop env hds
            { st1 with stdout := (env cmdAltRootvgOp).stdout
                       stderr := (env cmdAltRootvgOp).stderr
                       trace := st1.trace ++ [cmdAltRootvgOp] } with
        | crash => rw [hcl] at h; exact absurd h (by simp)
        | ok sto => rw [hcl] at h; exact absurd h (by simp)
        | fail stf =>
          rw [hcl] at h
          simp only [PyRes.fail.injEq] at h
          rw [← h]
          have := (clearLoop_changed env hds
            { st1 with stdout := (env cmdAltRootvgOp).stdout
                       stderr := (env cmdAltRootvgOp).stderr
                       trace := st1.trace ++ [cmdAltRootvgOp] }).2 stf hcl
          rw [this]
          exact hch1
    by_cases ht : targets ≠ []
    · rw [if_pos ht]
      cases hv : validateCleanTargets pvs targets with
      | some bad =>
        dsimp only
        exact ⟨fun st2 h => absurd h (by simp),
               fun st2 h => by
                 simp only [PyRes.fail.injEq] at h
                 rw [← h]
                 exact hch1⟩
      | none =>
        dsimp only
        by_cases hr : (env cmdAltRootvgOp).ret ≠ 0
        · rw [if_pos hr]
          exact ⟨fun st2 h => absurd h (by simp),
                 fun st2 h => by
                   simp only [PyRes.fail.injEq] at h
                   rw [← h]
                   exact hch1⟩
        · rw [if_neg hr]
          exact tail targets
    · rw [if_neg ht]
      by_cases he : altinstOf pvs = []
      · rw [if_pos he]
        exact ⟨fun st2 h => absurd h (by simp),
               fun st2 h => by
                 simp only [PyRes.fail.injEq] at h
                 rw [← h]
                 exact hch1⟩
      · rw [if_neg he]
        dsimp only
        by_cases hr : (env cmdAltRootvgOp).ret ≠ 0
        · rw [if_pos hr]
          exact ⟨fun st2 h => absurd h (by simp),
                 fun st2 h => by
                   simp only [PyRes.fail.injEq] at h
                   rw [← h]
                   exact hch1⟩
        · rw [if_neg hr]
          exact tail (altinstOf pvs)

/-- C10 (witness): removal succeeds, the single per-disk clear fails: the
run ends in a failure report carrying `changed = false`. -/
theorem c10_clean_changed_witness :
    ∃ st2, alt_disk_clean envC10W [] initState = PyRes.fail st2 ∧ st2.changed = false := by
  refine ⟨{ changed := false
            msg := "Command '/usr/sbin/chpv -C hdisk5' failed with return code 1."
            stdout := "chpv out"
            stderr := "chpv err"
            log := []
            trace := [cmdLspv, cmdAltRootvgOp, cmdChpv "hdisk5"] }, ?_, ?_⟩
  · decide
  · exact (c10_clean_changed envC10W [] initState (by decide)).2 _ (by decide)

/-- C2 (witness): a two-copy rootvg, forced: unmirror succeeds, the copy
command exits 1, restoration succeeds — the final report is the copy's
own failure. -/
theorem c2_restore_always_witness :
    ∃ st2, altDiskCopyPhase envC2W ["hdisk2"] [(1, "hdisk4"), (2, "hdisk8")] true initState
        = PyRes.fail st2 ∧
      st2.msg = "Failed to copy " ++ String.intercalate " " ["hdisk2"]
        ++ ": return code " ++ toString (envC2W (cmdAltDiskCopy ["hdisk2"])).ret ++ "." :=
  (c2_restore_always envC2W ["hdisk2"] [(1, "hdisk4"), (2, "hdisk8")] initState
      ["/usr/sbin/mirrorvg", "-m", "-c", "2", "rootvg", "hdisk8"]
      (by decide) (by decide) (by decide) (by decide)).2.1 (by decide) (by decide) (by decide)
